import Mathlib

/-!
Verification of the sublattice/SQS core of `prlworkflows` (files
`prlworkflows/sqs.py` and `prlworkflows/sqs_db.py`) against its
natural-language specification.

The Python code is shallowly embedded over exact rational arithmetic:

* a pymatgen `Structure` is represented by its lattice matrix (a triple of
  row vectors), its cell volume, and its list of sites, each site being a
  species token paired with a fractional-coordinate vector;
* Python `float` arithmetic becomes `ℚ` arithmetic;
* Python dictionaries that are only ever read back by key become total
  functions `String → ℚ` (resp. `String → Option String`) built with
  `Function.update`, since iteration order of those dictionaries is never
  observed by the source;
* fallible code returns `Except PyError`;
* the external elemental-property table (`Density of solid`), the external
  atomic-mass data underlying pymatgen's `Structure.density`, and the
  external periodic-table key enumeration are out-of-scope collaborators
  and are passed in as explicit parameters (`dT`, `mT`, `ptKeys`);
* `Structure.scale_lattice(v)` (external pymatgen) rescales the cell
  isotropically so that its volume becomes `v`; because the isotropic
  factor is a cube root, the embedding tracks the cell volume as an
  explicit `vol` field (updated by scaling) next to the untouched lattice
  shape matrix.
-/

namespace Prl

/-- A 3-vector of rationals (a site coordinate). -/
abbrev Vec3 := ℚ × ℚ × ℚ

/-- A 3×3 matrix of rationals given as three row vectors (a lattice). -/
abbrev Lat3 := Vec3 × Vec3 × Vec3

/-- Errors raised by the embedded code.  `sublMismatch` carries the
concrete and the abstract sublattice model, as the `ValueError` message
formatted at `sqs.py:70` does; `enumMismatch` and `lowerOrder` carry the
passed model and the structure's model (`sqs.py:303` and `sqs.py:307`).
The remaining constructors belong to `lat_in_to_sqs`:
`notImplementedMultiAtom` is the `NotImplementedError` of `sqs_db.py:93`
(carrying the offending token group), `notImplementedRename` the one of
`sqs_db.py:100`, `indexError` the `IndexError` of indexing past a Python
list's end (`atoms[0]` of an empty group, or `atom[1]` of an
underscore-free token at `sqs_db.py:103`), and `typeError` the `TypeError`
pymatgen's `Structure.__init__` raises at an unexpected keyword argument,
carrying that keyword. -/
inductive PyError where
  | sublMismatch (concrete : List (List String)) (abstract : List (List String))
  | enumMismatch (passed : List (List String)) (structModel : List (List String))
  | lowerOrder (passed : List (List String)) (structModel : List (List String))
  | notImplementedMultiAtom (atoms : List String)
  | notImplementedRename
  | indexError
  | typeError (kwarg : String)
deriving DecidableEq, Repr

/-- Decidable equality for `Except` results, so that concrete runs of the
embedded fallible code can be checked by evaluation. -/
instance {ε α : Type} [DecidableEq ε] [DecidableEq α] : DecidableEq (Except ε α) :=
  fun x y =>
    match x, y with
    | .error a, .error b =>
        if h : a = b then isTrue (by rw [h]) else isFalse (fun c => by injection c; exact h (by assumption))
    | .ok a, .ok b =>
        if h : a = b then isTrue (by rw [h]) else isFalse (fun c => by injection c; exact h (by assumption))
    | .error _, .ok _ => isFalse (fun c => by injection c)
    | .ok _, .error _ => isFalse (fun c => by injection c)

/-- Embedding of `AbstractSQS` (`sqs.py:16`): a pymatgen `Structure`
(lattice, volume, sites with species tokens such as `"Xaa"`) together with
the `sublattice_model` and `_sublattice_names` attributes set in
`AbstractSQS.__init__`. -/
structure AbstractSQS where
  lattice : Lat3
  vol : ℚ
  sites : List (String × Vec3)
  sublattice_model : List (List String)
  sublattice_names : List String
deriving DecidableEq, Repr

/-- Embedding of `SQS` (`sqs.py:164`): a pymatgen `Structure` together with
the `sublattice_configuration`, `sublattice_occupancies` and
`sublattice_site_ratios` attributes set in `SQS.__init__`. -/
structure SQS where
  lattice : Lat3
  vol : ℚ
  sites : List (String × Vec3)
  sublattice_configuration : List (List String)
  sublattice_occupancies : List (List ℚ)
  sublattice_site_ratios : List ℕ
deriving DecidableEq, Repr

/-! ### Python iteration helpers -/

/-- Python list comparison `a < b` (used at `sqs.py:304`, where two plain
Python lists of lengths are compared): lexicographic, with a strict prefix
comparing as smaller. -/
def pyListLt : List ℕ → List ℕ → Bool
  | [], [] => false
  | [], _ :: _ => true
  | _ :: _, [] => false
  | a :: as, b :: bs => if a < b then true else if b < a then false else pyListLt as bs

/-- All ways of picking one element of a list, returned together with the
remaining elements in order; the selection index increases left to right.
Helper for `pyPermutations`. -/
def selections {α : Type} : List α → List (α × List α)
  | [] => []
  | x :: xs => (x, xs) :: (selections xs).map (fun p => (p.1, x :: p.2))

/-- `itertools.permutations(l, r)` (used at `sqs.py:310`): all `r`-length
orderings of elements of `l`, positions treated as distinct, emitted in the
lexicographic order of the chosen index sequences; empty when `r` exceeds
the length of `l`. -/
def pyPermutations {α : Type} : ℕ → List α → List (List α)
  | 0, _ => [[]]
  | r + 1, l => (selections l).flatMap (fun p => (pyPermutations r p.2).map (fun t => p.1 :: t))

/-- `itertools.product(*lists)` (used at `sqs.py:313`): the cross product,
with the last factor varying fastest. -/
def pyProduct {α : Type} : List (List α) → List (List α)
  | [] => [[]]
  | l :: ls => l.flatMap (fun x => (pyProduct ls).map (fun t => x :: t))

/-- Python string comparison `a < b` on character lists: lexicographic by
code point, a strict prefix comparing as smaller. -/
def strLtB : List Char → List Char → Bool
  | [], [] => false
  | [], _ :: _ => true
  | _ :: _, [] => false
  | c :: cs, d :: ds =>
    if c.toNat < d.toNat then true
    else if d.toNat < c.toNat then false
    else strLtB cs ds

/-- Python string comparison `x < y` (code-point lexicographic). -/
def pyStrLt (x y : String) : Bool := strLtB x.data y.data

/-- Insert a string into a sorted list in front of the first element not
smaller than it. Helper for `sortStrings`. -/
def insertSorted (x : String) : List String → List String
  | [] => [x]
  | y :: ys => if pyStrLt y x then y :: insertSorted x ys else x :: y :: ys

/-- Python `sorted` on a list of strings (code-point lexicographic order).
Insertion sort; on duplicate-free input it produces the unique sorted
arrangement, as `sorted` does on the duplicate-free output of `set`. -/
def sortStrings (l : List String) : List String := l.foldr insertSorted []

/-- Python `zip` over three lists: truncates to the shortest. -/
def zip3 {α β γ : Type} (a : List α) (b : List β) (c : List γ) : List (α × β × γ) :=
  (a.zip (b.zip c)).map (fun p => (p.1, p.2.1, p.2.2))

/-- Python `zip` over four lists: truncates to the shortest. -/
def zip4 {α β γ δ : Type} (a : List α) (b : List β) (c : List γ) (d : List δ) :
    List (α × β × γ × δ) :=
  ((a.zip b).zip (c.zip d)).map (fun p => (p.1.1, p.1.2, p.2.1, p.2.2))

/-! ### Composition and sublattice site ratios (`sqs.py:38`–`sqs.py:56`) -/

/-- The species tokens of the sites, in site order. -/
def siteSpecies (s : AbstractSQS) : List String := s.sites.map Prod.fst

/-- Number of sites carrying a given species token
(one entry of `composition.as_dict()`).  The lookup is totalized: a token
absent from the sites counts 0, where pymatgen's `comp_dict[...]` would
raise a `KeyError` — an external-data failure distinct from the validation
errors modelled here; the theorems below either carry hypotheses that keep
every looked-up token present or concern errors other than this one. -/
def countTok (s : AbstractSQS) (tok : String) : ℕ := (siteSpecies s).count tok

/-- The gcd of all species counts: `composition.reduced_composition` divides
every amount of an integral composition by this. -/
def compGcd (s : AbstractSQS) : ℕ :=
  (((siteSpecies s).dedup).map (fun sp => (siteSpecies s).count sp)).foldr Nat.gcd 0

/-- Embedding of the `AbstractSQS.sublattice_site_ratios` property
(`sqs.py:48`–`sqs.py:56`): for each sublattice (the `sublattice_model`
zipped with `_sublattice_names`), the reduced integer count of each
abstract species token `X<name><symbol>` in the cell. -/
def sublattice_site_ratios (s : AbstractSQS) : List (List ℕ) :=
  (s.sublattice_model.zip s.sublattice_names).map
    (fun p => p.1.map (fun e => countTok s ("X" ++ p.2 ++ e) / compGcd s))

/-! ### The substitution engine `get_concrete_sqs` (`sqs.py:58`–`sqs.py:118`) -/

/-- The rows walked by the loop at `sqs.py:78`:
`zip(self.sublattice_model, subl_model, self._sublattice_names, self.sublattice_site_ratios)`. -/
def substRows (s : AbstractSQS) (subl_model : List (List String)) :
    List (List String × List String × String × List ℕ) :=
  zip4 s.sublattice_model subl_model s.sublattice_names (sublattice_site_ratios s)

/-- The `replacement_dict` built at `sqs.py:83`–`sqs.py:85`, as a partial map
from abstract species tokens to concrete species: for every row, each
`X<name><abstract>` is bound to its concrete species.  Later bindings
overwrite earlier ones, as Python dictionary assignment does. -/
def replacementDict (rows : List (List String × List String × String × List ℕ)) :
    String → Option String :=
  rows.foldl
    (fun d r =>
      (zip3 r.1 r.2.1 r.2.2.2).foldl
        (fun d2 t => Function.update d2 ("X" ++ r.2.2.1 ++ t.1) (some t.2.1)) d)
    (fun _ => none)

/-- One sublattice's occupancy dictionary (`sqs.py:82`–`sqs.py:86`):
starting from the empty dictionary, each `(abstract, concrete, ratio)`
triple adds `ratio / total` to the entry of its concrete species
(`d.get(concrete, 0) + site_ratio/sublattice_ratio_sum`). -/
def occDict (triples : List (String × String × ℕ)) (total : ℕ) : String → ℚ :=
  triples.foldl
    (fun d t => Function.update d t.2.1 (d t.2.1 + (t.2.2 : ℚ) / (total : ℚ)))
    (fun _ => 0)

/-- The `site_occupancies` list built by the loop at `sqs.py:78`–`sqs.py:87`:
one occupancy dictionary per row, dividing by that row's ratio sum. -/
def siteOccupancies (rows : List (List String × List String × String × List ℕ)) :
    List (String → ℚ) :=
  rows.map (fun r => occDict (zip3 r.1 r.2.1 r.2.2.2) r.2.2.2.sum)

/-- `replace_species` applied to the copied sites (`sqs.py:91`): every
species token bound in the replacement dictionary is rewritten, positions
untouched. -/
def substitutedSites (sites : List (String × Vec3)) (repl : String → Option String) :
    List (String × Vec3) :=
  sites.map (fun q => ((repl q.1).getD q.1, q.2))

/-- `composition.fractional_composition` of a site list: the fraction of
sites carrying a given species. -/
def fractionalComp (sites : List (String × Vec3)) (e : String) : ℚ :=
  ((sites.map Prod.fst).count e : ℚ) / (sites.length : ℚ)

/-- The `estimated_density` accumulated at `sqs.py:95`–`sqs.py:99`: over the
distinct elements present, the fractional composition times the tabulated
solid density divided by 1000. `dT` is the external `Density of solid`
table (`pmg.Element(...).data`), passed in as a parameter. -/
def estimatedDensity (sites : List (String × Vec3)) (dT : String → ℚ) : ℚ :=
  (((sites.map Prod.fst).dedup).map (fun e => fractionalComp sites e * dT e / 1000)).sum

/-- The pymatgen `Structure.density` property: total mass over volume.
`mT` is the external per-element mass table, with pymatgen's unit constants
folded into it. -/
def structDensity (sites : List (String × Vec3)) (vol : ℚ) (mT : String → ℚ) : ℚ :=
  ((sites.map Prod.fst).map mT).sum / vol

/-- The state of `self_copy` after `sqs.py:90`–`sqs.py:100`: a deep copy of
the receiver with `replace_species` applied and, when `scale_volume` is
set, `scale_lattice((volume/estimated_density)*density)` performed, which
sets the cell volume to that target. -/
def selfCopyAfter (self : AbstractSQS) (subl_model : List (List String))
    (scale_volume : Bool) (dT mT : String → ℚ) : AbstractSQS :=
  let rows := substRows self subl_model
  let rep := { self with sites := substitutedSites self.sites (replacementDict rows) }
  if scale_volume then
    { rep with vol := rep.vol / estimatedDensity rep.sites dT * structDensity rep.sites rep.vol mT }
  else rep

/-- `sorted(set(subl))` for each sublattice of the concrete model
(`sqs.py:106`): duplicates collapse, result sorted. -/
def sublatticeConfigurationOf (subl_model : List (List String)) : List (List String) :=
  subl_model.map (fun subl => sortStrings subl.dedup)

/-- Embedding of `AbstractSQS.get_concrete_sqs` (`sqs.py:58`–`sqs.py:118`).
The two size checks (`sqs.py:71` outer, `sqs.py:79` inner, the latter
scanned over the zipped rows; the raised error is the same value wherever
the loop detects it) fail with the error built by `_subl_error`, which
names the concrete and the abstract model.  On success the concrete `SQS`
carries the copied-and-substituted sites, the canonicalized
configuration, the occupancies looked up per canonical species, and the
per-sublattice ratio sums. -/
def get_concrete_sqs (self : AbstractSQS) (subl_model : List (List String))
    (scale_volume : Bool) (dT mT : String → ℚ) : Except PyError SQS :=
  if subl_model.length ≠ self.sublattice_model.length then
    .error (.sublMismatch subl_model self.sublattice_model)
  else
    let rows := substRows self subl_model
    if rows.any (fun r => r.1.length ≠ r.2.1.length) then
      .error (.sublMismatch subl_model self.sublattice_model)
    else
      let occs := siteOccupancies rows
      let copy := selfCopyAfter self subl_model scale_volume dT mT
      let config := sublatticeConfigurationOf subl_model
      .ok { lattice := copy.lattice
            vol := copy.vol
            sites := copy.sites
            sublattice_configuration := config
            sublattice_occupancies := (occs.zip config).map (fun p => p.2.map p.1)
            sublattice_site_ratios := (sublattice_site_ratios self).map List.sum }

/-! ### Endmember symmetry resolver (`sqs.py:121`–`sqs.py:145`) -/

/-- The abstract endmember sublattice model built at `sqs.py:134`: one
placeholder `X<name>` repeated for every slot of each sublattice. -/
def endmemberAbstractSubl (s : AbstractSQS) : List (List String) :=
  (s.sublattice_model.zip s.sublattice_names).map
    (fun p => p.1.map (fun _ => "X" ++ p.2))

/-- The set comprehension at `sqs.py:137`, as the duplicate-free list of
placeholders (Python set iteration order is implementation-defined; the
zip below pairs each distinct placeholder with one periodic-table key, so
only the set of pairs matters downstream). -/
def endmemberSpecies (s : AbstractSQS) : List String :=
  (endmemberAbstractSubl s).flatten.dedup

/-- The `real_species_dict` of `sqs.py:138`: the distinct placeholders
zipped against the keys of the external periodic-table data (`ptKeys`). -/
def realSpeciesDict (s : AbstractSQS) (ptKeys : List String) : String → Option String :=
  fun sp => ((endmemberSpecies s).zip ptKeys).lookup sp

/-- The concrete endmember sublattice model of `sqs.py:141`: every
placeholder replaced through `real_species_dict`. -/
def endmemberSubl (s : AbstractSQS) (ptKeys : List String) : List (List String) :=
  (endmemberAbstractSubl s).map (fun subl => subl.map (fun sp => (realSpeciesDict s ptKeys sp).getD sp))

/-- The endmember structure built at `sqs.py:143`:
`self.get_concrete_sqs(endmember_subl)` — no `scale_volume` argument is
passed, so the default `scale_volume=True` of `get_concrete_sqs` applies.
The subsequent `get_space_group_info` call is an external geometry service
and is not part of this embedding. -/
def get_endmember_concrete (s : AbstractSQS) (dT mT : String → ℚ) (ptKeys : List String) :
    Except PyError SQS :=
  get_concrete_sqs s (endmemberSubl s ptKeys) true dT mT

/-! ### Serialization (`sqs.py:147`–`sqs.py:161`) -/

/-- The dictionary produced by `AbstractSQS.as_dict`: the base pymatgen
`Structure.as_dict` payload (lattice, volume, sites — pymatgen's structure
serialization round-trips these faithfully, which the embedding renders by
storing them directly), plus the keys added at `sqs.py:149`–`sqs.py:153`. -/
structure SQSDict where
  lattice : Lat3
  vol : ℚ
  sites : List (String × Vec3)
  sublattice_model : List (List String)
  sublattice_names : List String
  sublattice_site_ratios : List (List ℕ)
  symmetry_symbol : String
  symmetry_number : ℤ
deriving DecidableEq, Repr

/-- Embedding of `AbstractSQS.as_dict` (`sqs.py:147`–`sqs.py:154`): the
structure payload plus `sublattice_model`, `sublattice_names`, the computed
`sublattice_site_ratios`, and the `symmetry` object computed by the
endmember resolver at serialization time.  `sga` is the external
space-group service (`get_space_group_info`), a parameter. -/
def AbstractSQS.as_dict (s : AbstractSQS) (dT mT : String → ℚ) (ptKeys : List String)
    (sga : SQS → String × ℤ) : Except PyError SQSDict :=
  match get_endmember_concrete s dT mT ptKeys with
  | .error e => .error e
  | .ok em =>
      .ok { lattice := s.lattice
            vol := s.vol
            sites := s.sites
            sublattice_model := s.sublattice_model
            sublattice_names := s.sublattice_names
            sublattice_site_ratios := sublattice_site_ratios s
            symmetry_symbol := (sga em).1
            symmetry_number := (sga em).2 }

/-- Embedding of `AbstractSQS.from_dict` (`sqs.py:156`–`sqs.py:161`): the
base `Structure.from_dict` restores the structure payload, then
`sublattice_model` and `sublattice_names` are read back from the
dictionary; the symmetry entry is ignored. -/
def AbstractSQS.from_dict (d : SQSDict) : AbstractSQS :=
  { lattice := d.lattice
    vol := d.vol
    sites := d.sites
    sublattice_model := d.sublattice_model
    sublattice_names := d.sublattice_names }

/-! ### Heap-passing form of `get_concrete_sqs`

To state that the method never mutates its receiver we re-run the body
over an explicit object heap: a list of `AbstractSQS` values indexed by
address.  `copy.deepcopy(self)` (`sqs.py:90`) allocates a fresh address
holding an equal value; `replace_species` and `scale_lattice` write to that
fresh address (they are the only mutating statements of the method).  If
the source had aliased instead of copied, those writes would hit the
receiver's address and the frame theorem below would fail. -/

/-- A default object used only to make heap reads total. -/
def defaultAbstract : AbstractSQS :=
  { lattice := ((0,0,0),(0,0,0),(0,0,0)), vol := 0, sites := [],
    sublattice_model := [], sublattice_names := [] }

/-- Read an address of the heap. -/
def heapGet (h : List AbstractSQS) (r : ℕ) : AbstractSQS := h.getD r defaultAbstract

/-- Heap-passing embedding of `AbstractSQS.get_concrete_sqs`
(`sqs.py:58`–`sqs.py:118`): validation happens first (it reads the receiver
only), then the deep copy is allocated at a fresh address, the substitution
and optional volume scaling are performed at that address, and the
returned `SQS` is assembled from the copy's final state.  Returns the
post-call heap together with the result. -/
def get_concrete_sqs_method (heap : List AbstractSQS) (ref : ℕ)
    (subl_model : List (List String)) (scale_volume : Bool) (dT mT : String → ℚ) :
    List AbstractSQS × Except PyError SQS :=
  let self := heapGet heap ref
  if subl_model.length ≠ self.sublattice_model.length then
    (heap, .error (.sublMismatch subl_model self.sublattice_model))
  else
    let rows := substRows self subl_model
    if rows.any (fun r => r.1.length ≠ r.2.1.length) then
      (heap, .error (.sublMismatch subl_model self.sublattice_model))
    else
      let copyAddr := heap.length
      let heap1 := heap ++ [self]
      let heap2 := heap1.set copyAddr (selfCopyAfter self subl_model scale_volume dT mT)
      let copy := heapGet heap2 copyAddr
      let occs := siteOccupancies rows
      let config := sublatticeConfigurationOf subl_model
      (heap2,
       .ok { lattice := copy.lattice
             vol := copy.vol
             sites := copy.sites
             sublattice_configuration := config
             sublattice_occupancies := (occs.zip config).map (fun p => p.2.map p.1)
             sublattice_site_ratios := (sublattice_site_ratios self).map List.sum })

/-! ### Concrete-structure equality (`sqs.py:189`–`sqs.py:190`) -/

/-- Embedding of `SQS.__eq__`, whose body is `pass`: the call returns
Python `None` for every pair of arguments, rendered as `Option.none` of an
`Option Bool` result. -/
def SQS.pyEq (_x _y : SQS) : Option Bool := none

/-- Python truthiness of an `Option Bool` value: `None` is falsy. -/
def pyTruthy (o : Option Bool) : Bool := o.getD false

/-! ### The enumeration engine `enumerate_sqs` (`sqs.py:276`–`sqs.py:327`) -/

/-- The membership test `concrete.sublattice_occupancies not in
sublattice_occupancies` at `sqs.py:323`, negated.  The tracking list is
only ever extended by `sublattice_occupancies.append(sublattice_occupancies)`
(`sqs.py:325`), i.e. the list object is appended to itself, so at every
test its elements are all the (self-referential) tracker object and never
an occupancy value of a kept candidate.  Python list equality compares a
candidate's fresh list of rational lists against that self-referential
list elementwise; every comparison path ends in a length mismatch or in a
`float == list` comparison, both false, so the membership test is false at
every call.  The tracker is therefore represented by the number of
self-references it holds, and the test by the constant it evaluates to. -/
def selfRefTrackerContains (_trackerLen : ℕ) (_occ : List (List ℚ)) : Bool := false

/-- The deduplication loop of `sqs.py:316`–`sqs.py:327`: walk the candidate
models in order; build the concrete structure; skip the candidate if its
configuration has been recorded, else skip it if the (broken) occupancy
membership test fires, else record the configuration, append the tracker to
itself, and keep the structure. -/
def enumLoop (s : AbstractSQS) (scale_volume : Bool) (dT mT : String → ℚ) :
    List (List (List String)) → List SQS → List (List (List String))
      → ℕ → Except PyError (List SQS)
  | [], result, _, _ => .ok result
  | m :: ms, result, seenConfigs, occLen =>
    match get_concrete_sqs s m scale_volume dT mT with
    | .error e => .error e
    | .ok concrete =>
      if concrete.sublattice_configuration ∈ seenConfigs then
        enumLoop s scale_volume dT mT ms result seenConfigs occLen
      else if selfRefTrackerContains occLen concrete.sublattice_occupancies then
        enumLoop s scale_volume dT mT ms result seenConfigs occLen
      else
        enumLoop s scale_volume dT mT ms (result ++ [concrete])
          (seenConfigs ++ [concrete.sublattice_configuration]) (occLen + 1)

/-- Embedding of `enumerate_sqs` (`sqs.py:276`–`sqs.py:327`).  `struct` is
the parameter named `structure` in the source (a Lean keyword).  The
`endmembers` flag is accepted and, as in the source body, never read.
Validation: the outer length check of `sqs.py:302`, then the lower-order
check of `sqs.py:304`, which compares the two Python lists of inner
lengths with `<` — lexicographic list comparison (`np.any` of the
resulting single `bool` is that `bool`).  Then every per-sublattice
permutation of the solution species of the abstract slot count is formed,
their cross product is walked, and the deduplication loop keeps or skips
each candidate. -/
def enumerate_sqs (struct : AbstractSQS) (subl_model : List (List String))
    (endmembers scale_volume skip_on_failure : Bool) (dT mT : String → ℚ) :
    Except PyError (List SQS) :=
  if subl_model.length ≠ struct.sublattice_model.length then
    .error (.enumMismatch subl_model struct.sublattice_model)
  else if pyListLt (subl_model.map List.length) (struct.sublattice_model.map List.length) then
    if skip_on_failure then .ok [] else .error (.lowerOrder subl_model struct.sublattice_model)
  else
    let possible := (subl_model.zip struct.sublattice_model).map
      (fun p => pyPermutations p.2.length p.1)
    enumLoop struct scale_volume dT mT (pyProduct possible) [] [] 0

/-! ### The abstract structure builder `lat_in_to_sqs` (`sqs_db.py:53`–`sqs_db.py:116`)

The builder is embedded from the point where the coordinate-system matrix
and the direct lattice have been read off the parsed data (all three
reference inputs use the three-line matrix form of the coordinate system;
the lengths-and-angles branch, `sqs_db.py:83`, calls an external
trigonometric constructor and only changes how that matrix is obtained).
The embedding covers the effective-lattice computation of `sqs_db.py:85`,
the atom loop of `sqs_db.py:90`–`sqs_db.py:107` with its three error
exits, the sublattice-model assembly of `sqs_db.py:109`–`sqs_db.py:110`,
and the `SQS(...)` constructor call of `sqs_db.py:111` including its
keyword-argument plumbing: `SQS.__init__` (`sqs.py:184`–`sqs.py:186`) pops
only the three concrete-metadata keywords and forwards the rest to the
external pymatgen `Structure.__init__`, which accepts a fixed set of
keyword parameters and raises `TypeError` at an unexpected one.  Because
the call passes `sublattice_model=` and `sublattice_names=` (which only
`AbstractSQS.__init__`, `sqs.py:34`–`sqs.py:35`, would pop), that
`TypeError` is raised on every input that survives the atom loop, and the
remainder of the builder (`sqs_db.py:112`–`sqs_db.py:116`, including the
`modify_lattice` cell correction at `sqs_db.py:114`) is unreachable and
not modelled beyond its guard. -/

/-- Python `str.lower` on one character, for the ASCII letters (and the
underscore) which are the only characters the parser's
`Word(alphas + '_')` token rule admits. -/
def pyCharToLower (c : Char) : Char :=
  if 65 ≤ c.toNat ∧ c.toNat ≤ 90 then Char.ofNat (c.toNat + 32) else c

/-- Python `str.split('_')` on a character list: the groups between
underscores, always at least one group, empty groups preserved. -/
def splitU : List Char → List (List Char)
  | [] => [[]]
  | c :: cs =>
    if c = '_' then [] :: splitU cs
    else
      match splitU cs with
      | [] => [[c]]
      | g :: gs => (c :: g) :: gs

/-- One iteration of the atom loop (`sqs_db.py:90`–`sqs_db.py:107`),
yielding the `(sublattice name, abstract symbol, position)` triple it
appends to the accumulators: a token group of more than one token is a
`NotImplementedError` (`sqs_db.py:93`), `atoms[0]` of an empty group is an
`IndexError`, `rename=False` is a `NotImplementedError` (`sqs_db.py:100`),
and `atom[1]` of a token without an underscore is an `IndexError`
(`sqs_db.py:103`). -/
def processAtom (rename : Bool) (entry : (Fin 3 → ℚ) × List String) :
    Except PyError (String × String × (Fin 3 → ℚ)) :=
  match entry.2 with
  | [] => .error .indexError
  | [atomTok] =>
      if rename then
        match splitU (atomTok.data.map pyCharToLower) with
        | [] => .error .indexError
        | [_] => .error .indexError
        | s :: a :: _ => .ok (String.mk s, String.mk a, entry.1)
      else .error .notImplementedRename
  | toks => .error (.notImplementedMultiAtom toks)

/-- Run a fallible step over a list in order, stopping at the first error,
as a Python `for` loop over fallible bodies does. -/
def mapExcept {α β : Type} (f : α → Except PyError β) : List α → Except PyError (List β)
  | [] => .ok []
  | x :: xs =>
    match f x with
    | .error e => .error e
    | .ok y =>
      match mapExcept f xs with
      | .error e => .error e
      | .ok ys => .ok (y :: ys)

/-- The `sublattice_model` assembled at `sqs_db.py:109` from the per-atom
`(sublattice, symbol)` pairs: for each sublattice name in sorted order,
the sorted set of symbols seen in it. -/
def sublattice_model_of (pairs : List (String × String)) : List (List String) :=
  (sortStrings (pairs.map Prod.fst).dedup).map
    (fun s => sortStrings ((pairs.filter (fun e => e.1 = s)).map Prod.snd).dedup)

/-- The keywords `SQS.__init__` pops before delegating
(`sqs.py:184`–`sqs.py:186`). -/
def sqsInitPops : List String :=
  ["sublattice_configuration", "sublattice_occupancies", "sublattice_site_ratios"]

/-- The keyword arguments of the constructor call at
`sqs_db.py:111`–`sqs_db.py:113`, in source order (the positional
arguments — lattice, species, positions — bind to declared positional
parameters and are not part of the keyword plumbing). -/
def latInCallKwargs : List String :=
  ["coords_are_cartesian", "sublattice_model", "sublattice_names"]

/-- The keyword parameters of the external pymatgen `Structure.__init__`
(per its documented signature: after the positional `lattice`, `species`,
`coords` come `charge`, `validate_proximity`, `to_unit_cell`,
`coords_are_cartesian`, `site_properties`).  No pymatgen version accepts a
sublattice keyword here; the theorems below depend only on
`"sublattice_model"` not being in this list, which is also taken as a
parameter so the dependence is explicit. -/
def structureInitKeywords : List String :=
  ["charge", "validate_proximity", "to_unit_cell", "coords_are_cartesian", "site_properties"]

/-- The first keyword of a list that is not among the accepted keyword
parameters, if any — the keyword a Python `TypeError: unexpected keyword
argument` names (keyword dictionaries preserve call order). -/
def firstRejected (accepted : List String) : List String → Option String
  | [] => none
  | k :: ks => if accepted.contains k then firstRejected accepted ks else some k

/-- The keyword plumbing of a pymatgen-`Structure`-subclass constructor
call: the subclass `__init__` pops its own keys (`kwargs.pop`) and
forwards the remaining keyword arguments to `Structure.__init__`, which
raises `TypeError` at the first unexpected keyword. -/
def pyKwargsForward (popped kwargs accepted : List String) : Except PyError Unit :=
  match firstRejected accepted (kwargs.filter (fun k => !popped.contains k)) with
  | some k => .error (.typeError k)
  | none => .ok ()

/-- The data `lat_in_to_sqs` has assembled when it reaches the
constructor call of `sqs_db.py:111`.  A value of this type is what the
builder would go on to wrap and correct (`sqs_db.py:112`–`sqs_db.py:116`)
if the construction succeeded; the theorems below show it never does. -/
structure LatInOk where
  effective_lattice : Matrix (Fin 3) (Fin 3) ℚ
  species_list : List String
  species_positions : List (Fin 3 → ℚ)
  sublattice_model : List (List String)
  sublattice_names : List String
deriving DecidableEq

/-- Embedding of `lat_in_to_sqs` (`sqs_db.py:53`–`sqs_db.py:116`) from the
parsed coordinate-system matrix, direct lattice and atom entries.
`accepted` is the keyword-parameter list of the external
`Structure.__init__`.  The effective lattice is
`coord_system.dot(direct_lattice)` (`sqs_db.py:85`); the atom loop
produces the `(sublattice, symbol, position)` triples; the model and names
are assembled sorted; then the `SQS(...)` call of `sqs_db.py:111` runs the
keyword plumbing, and only if it accepted the keywords would the assembled
data be returned for the (then) following correction steps. -/
def lat_in_to_sqs (coord_system direct_lattice : Matrix (Fin 3) (Fin 3) ℚ)
    (atat_atoms : List ((Fin 3 → ℚ) × List String)) (rename : Bool)
    (accepted : List String) : Except PyError LatInOk :=
  let lattice := coord_system * direct_lattice
  match mapExcept (processAtom rename) atat_atoms with
  | .error e => .error e
  | .ok entries =>
      let pairs := entries.map (fun e => (e.1, e.2.1))
      match pyKwargsForward sqsInitPops latInCallKwargs accepted with
      | .error e => .error e
      | .ok _ =>
          .ok { effective_lattice := lattice
                species_list := entries.map (fun e => "X" ++ e.1 ++ e.2.1)
                species_positions := entries.map (fun e => e.2.2)
                sublattice_model := sublattice_model_of pairs
                sublattice_names := sortStrings (pairs.map Prod.fst).dedup }

/-! ### Concrete inputs for the reference scenarios

`s_L12` has the species content of the parsed `ATAT_FCC_L12_LATTICE_IN`
structure of the test module: 4 sites `Xaa`, 4 sites `Xab`, 24 sites
`Xca`, `sublattice_model = [['a','b'],['a']]`, `sublattice_names =
['a','c']` (so `sublattice_site_ratios = [[1,1],[6]]`, as
`test_atat_bestsqs_is_correctly_parsed_to_sqs` asserts).  Site positions
and the lattice never influence the sublattice computations of `sqs.py`,
so they are set to placeholders here.  `s_B1` likewise mirrors the
rocksalt structure's sublattice content (`[['a','b'],['a','b']]`, equal
counts).  The external density and mass tables are positive constants. -/

/-- Placeholder position. -/
def pos0 : Vec3 := (0, 0, 0)

/-- Placeholder (identity) lattice with unit volume. -/
def lat0 : Lat3 := ((1,0,0),(0,1,0),(0,0,1))

/-- Constant solid-density table (1000, so the estimated density is 1). -/
def dT0 : String → ℚ := fun _ => 1000

/-- Constant mass table. -/
def mT0 : String → ℚ := fun _ => 1

/-- The L1₂ reference abstract structure (species content of
`ATAT_FCC_L12_LATTICE_IN`). -/
def s_L12 : AbstractSQS :=
  { lattice := lat0
    vol := 1
    sites := List.replicate 4 ("Xaa", pos0) ++ List.replicate 4 ("Xab", pos0)
      ++ List.replicate 24 ("Xca", pos0)
    sublattice_model := [["a", "b"], ["a"]]
    sublattice_names := ["a", "c"] }

/-- A rocksalt-like abstract structure with two two-slot sublattices
(species content shaped like `ATAT_ROCKSALT_B1_LATTICE_IN`). -/
def s_B1 : AbstractSQS :=
  { lattice := lat0
    vol := 1
    sites := List.replicate 8 ("Xaa", pos0) ++ List.replicate 8 ("Xab", pos0)
      ++ List.replicate 8 ("Xba", pos0) ++ List.replicate 8 ("Xbb", pos0)
    sublattice_model := [["a", "b"], ["a", "b"]]
    sublattice_names := ["a", "b"] }

/-- A one-site abstract structure with a single one-slot sublattice, used
to exercise the endmember path on concrete numbers. -/
def s_end : AbstractSQS :=
  { lattice := lat0
    vol := 1
    sites := [("Xaa", pos0)]
    sublattice_model := [["a"]]
    sublattice_names := ["a"] }

/-- A mass table giving `s_end` the density 2 at unit volume. -/
def mT4 : String → ℚ := fun _ => 2

/-- The parsed coordinate-system matrix of `ATAT_GA3PT5_LATTICE_IN` (its
first three lines). -/
def ga3pt5Coord : Matrix (Fin 3) (Fin 3) ℚ := !![2, 0, 0; 0, 2, 0; 0, 0, 1]

/-- The parsed direct lattice of `ATAT_GA3PT5_LATTICE_IN` (its second
three lines). -/
def ga3pt5Direct : Matrix (Fin 3) (Fin 3) ℚ := !![1/2, -1/2, 0; 1/2, 1/2, 0; 0, 0, 1]

/-- The parsed atom entries of `ATAT_GA3PT5_LATTICE_IN`: positions and
token groups, in file order. -/
def ga3pt5Atoms : List ((Fin 3 → ℚ) × List String) :=
  [(![0, 0, 0], ["aej_A"]),
   (![1/4, 1/4, 0], ["aej_A"]),
   (![3/4, 1/4, 0], ["aej_A"]),
   (![0, 1/4, 1/2], ["aej_A"]),
   (![0, -1/4, 1/2], ["aej_A"]),
   (![1/2, 0, 0], ["bh_A"]),
   (![1/4, 0, 1/2], ["bh_A"]),
   (![-1/4, 0, 1/2], ["bh_A"])]

/-! ## Helper lemmas -/

/-- Unfolding lemma for `zip4` on four cons cells. -/
theorem zip4_cons {α β γ δ : Type} (x : α) (y : β) (z : γ) (w : δ)
    (a : List α) (b : List β) (c : List γ) (d : List δ) :
    zip4 (x :: a) (y :: b) (z :: c) (w :: d) = (x, y, z, w) :: zip4 a b c d := by
  simp [zip4]

/-- Unfolding lemma for `zip3` on three cons cells. -/
theorem zip3_cons {α β γ : Type} (x : α) (y : β) (z : γ)
    (a : List α) (b : List β) (c : List γ) :
    zip3 (x :: a) (y :: b) (z :: c) = (x, y, z) :: zip3 a b c := by
  simp [zip3]

/-- The second component of a `zip3` element is an element of the middle
list. -/
theorem mem_zip3_snd {α β γ : Type} {a : List α} {b : List β} {c : List γ}
    {t : α × β × γ} (h : t ∈ zip3 a b c) : t.2.1 ∈ b := by
  simp only [zip3, List.mem_map] at h
  obtain ⟨p, hp, rfl⟩ := h
  exact (List.of_mem_zip (List.of_mem_zip hp).2).1

/-- Projecting the third components of `zip3` over equal-length lists
recovers the third list. -/
theorem zip3_map_thd {α β γ : Type} (a : List α) (b : List β) (c : List γ)
    (ha : a.length = c.length) (hb : b.length = c.length) :
    (zip3 a b c).map (fun t => t.2.2) = c := by
  induction c generalizing a b with
  | nil =>
      cases a with
      | nil => rfl
      | cons _ _ => simp at ha
  | cons z zs ih =>
      cases a with
      | nil => simp at ha
      | cons x xs =>
          cases b with
          | nil => simp at hb
          | cons y ys =>
              rw [zip3_cons]
              simp only [List.map_cons]
              rw [ih xs ys (by simpa using ha) (by simpa using hb)]

/-- Inserting preserves the multiset of elements. -/
theorem insertSorted_perm (x : String) (l : List String) :
    (insertSorted x l).Perm (x :: l) := by
  induction l with
  | nil => exact List.Perm.refl _
  | cons y ys ih =>
      by_cases h : pyStrLt y x
      · rw [insertSorted, if_pos h]
        exact (ih.cons y).trans (List.Perm.swap x y ys)
      · rw [insertSorted, if_neg h]

/-- Sorting preserves the multiset of elements. -/
theorem sortStrings_perm (l : List String) : (sortStrings l).Perm l := by
  induction l with
  | nil => exact List.Perm.refl _
  | cons x xs ih => exact (insertSorted_perm x (sortStrings xs)).trans (ih.cons x)

/-- The canonical configuration of a sublattice is duplicate-free. -/
theorem sortStrings_dedup_nodup (l : List String) : (sortStrings l.dedup).Nodup :=
  ((sortStrings_perm l.dedup).nodup_iff).mpr l.nodup_dedup

/-- Membership in the canonical configuration of a sublattice. -/
theorem mem_sortStrings_dedup {x : String} {l : List String} (h : x ∈ l) :
    x ∈ sortStrings l.dedup :=
  ((sortStrings_perm l.dedup).mem_iff).mpr (List.mem_dedup.mpr h)

/-- Updating a key outside the sampled list does not change the sampled
values. -/
theorem map_update_of_not_mem (cfg : List String) (k : String) (hk : k ∉ cfg)
    (d : String → ℚ) (v : ℚ) : cfg.map (Function.update d k v) = cfg.map d := by
  induction cfg with
  | nil => rfl
  | cons y ys ih =>
      simp only [List.mem_cons, not_or] at hk
      simp only [List.map_cons]
      rw [Function.update_noteq (fun hyk => hk.1 hyk.symm), ih hk.2]

/-- Adding `x` to the entry of a key of a duplicate-free list adds `x` to
the sum of the sampled values. -/
theorem sum_map_update_add (cfg : List String) (hn : cfg.Nodup) (k : String)
    (hk : k ∈ cfg) (d : String → ℚ) (x : ℚ) :
    (cfg.map (Function.update d k (d k + x))).sum = (cfg.map d).sum + x := by
  induction cfg with
  | nil => cases hk
  | cons y ys ih =>
      rcases List.mem_cons.mp hk with h | h
      · subst h
        have hnot : k ∉ ys := (List.nodup_cons.mp hn).1
        simp only [List.map_cons, List.sum_cons, Function.update_same,
          map_update_of_not_mem ys k hnot d _]
        ring
      · have hy : y ≠ k := by
          rintro rfl
          exact (List.nodup_cons.mp hn).1 h
        simp only [List.map_cons, List.sum_cons, Function.update_noteq hy,
          ih (List.nodup_cons.mp hn).2 h]
        ring

/-- Folding the occupancy updates over triples whose keys all lie in a
duplicate-free sampled list adds exactly the sum of the added values. -/
theorem sum_map_occFold (cfg : List String) (hn : cfg.Nodup) (total : ℕ) :
    ∀ (ts : List (String × String × ℕ)) (d : String → ℚ),
      (∀ t ∈ ts, t.2.1 ∈ cfg) →
      (cfg.map (ts.foldl
          (fun d2 t => Function.update d2 t.2.1 (d2 t.2.1 + (t.2.2 : ℚ) / (total : ℚ))) d)).sum
        = (cfg.map d).sum + (ts.map (fun t => (t.2.2 : ℚ) / (total : ℚ))).sum := by
  intro ts
  induction ts with
  | nil => intro d _; simp
  | cons t ts ih =>
      intro d hmem
      rw [List.foldl_cons]
      rw [ih _ (fun u hu => hmem u (List.mem_cons_of_mem t hu))]
      rw [sum_map_update_add cfg hn t.2.1 (hmem t (List.mem_cons_self t ts)) d _]
      simp only [List.map_cons, List.sum_cons]
      ring

/-- The values of the occupancy dictionary, sampled over a duplicate-free
list containing all its keys, sum to the sum of the contributed ratios. -/
theorem sum_map_occDict (cfg : List String) (hn : cfg.Nodup)
    (ts : List (String × String × ℕ)) (total : ℕ)
    (hts : ∀ t ∈ ts, t.2.1 ∈ cfg) :
    (cfg.map (occDict ts total)).sum
      = (ts.map (fun t => (t.2.2 : ℚ) / (total : ℚ))).sum := by
  have h := sum_map_occFold cfg hn total ts (fun _ => 0) hts
  have hz : (cfg.map (fun _ => (0 : ℚ))).sum = 0 := by simp
  rw [occDict, h, hz, zero_add]

/-- Summing the ratio contributions of a list of naturals divided by a
common total. -/
theorem sum_map_div_nat (l : List ℕ) (S : ℚ) :
    (l.map (fun r : ℕ => (r : ℚ) / S)).sum = ((l.sum : ℕ) : ℚ) / S := by
  induction l with
  | nil => simp
  | cons r rs ih =>
      rw [List.map_cons, List.sum_cons, ih, List.sum_cons]
      push_cast
      ring

/-- The fourth component of a `zip4` element is an element of the fourth
list. -/
theorem mem_zip4_fourth {α β γ δ : Type} {a : List α} {b : List β} {c : List γ} {d : List δ}
    {r : α × β × γ × δ} (h : r ∈ zip4 a b c d) : r.2.2.2 ∈ d := by
  simp only [zip4, List.mem_map] at h
  obtain ⟨p, hp, rfl⟩ := h
  exact (List.of_mem_zip (List.of_mem_zip hp).2).2

/-- When the fourth list of a `zip4` is computed from the first and third
(as `sublattice_site_ratios` is from the model and the names), each row's
fourth component is that function of its first and third components. -/
theorem zip4_fourth_eq {α β γ δ : Type} (F : α → γ → δ) :
    ∀ (a : List α) (b : List β) (c : List γ) (r : α × β × γ × δ),
      r ∈ zip4 a b c ((a.zip c).map (fun p => F p.1 p.2)) → r.2.2.2 = F r.1 r.2.2.1 := by
  intro a
  induction a with
  | nil => intro b c r h; simp [zip4] at h
  | cons x a ih =>
      intro b c r h
      cases b with
      | nil => simp [zip4] at h
      | cons y b =>
          cases c with
          | nil => simp [zip4] at h
          | cons z c =>
              rw [List.zip_cons_cons, List.map_cons, zip4_cons] at h
              rcases List.mem_cons.mp h with h | h
              · subst h; rfl
              · exact ih b c r h

/-- One sublattice of the occupancy-sum invariant: if the abstract
sublattice, the concrete sublattice and the ratio list have equal lengths
and the ratio sum is positive, the occupancy dictionary sampled over the
canonicalized configuration sums to 1. -/
theorem occ_head_sum (x y : List String) (w : List ℕ)
    (hx : x.length = y.length) (hw : w.length = x.length) (hpos : 0 < w.sum) :
    ((sortStrings y.dedup).map (occDict (zip3 x y w) w.sum)).sum = 1 := by
  rw [sum_map_occDict (sortStrings y.dedup) (sortStrings_dedup_nodup y) (zip3 x y w) w.sum
    (fun t ht => mem_sortStrings_dedup (mem_zip3_snd ht))]
  have hcomp : (zip3 x y w).map (fun t => (t.2.2 : ℚ) / (w.sum : ℚ))
      = ((zip3 x y w).map (fun t => t.2.2)).map (fun r : ℕ => (r : ℚ) / (w.sum : ℚ)) := by
    rw [List.map_map]
    rfl
  rw [hcomp, zip3_map_thd x y w (by omega) (by omega), sum_map_div_nat]
  exact div_self (by exact_mod_cast Nat.pos_iff_ne_zero.mp hpos)

/-- Core of the occupancy-sum invariant: walking the substitution rows in
parallel with the canonicalized configuration of the concrete model, every
sampled occupancy list sums to 1, provided each row's abstract and
concrete sublattices have equal lengths, its ratio list has the abstract
length, and its ratio sum is positive. -/
theorem occ_rows_sum :
    ∀ (model mm : List (List String)) (names : List String) (rats : List (List ℕ)),
      (∀ r ∈ zip4 model mm names rats, r.1.length = r.2.1.length) →
      (∀ r ∈ zip4 model mm names rats, r.2.2.2.length = r.1.length) →
      (∀ r ∈ zip4 model mm names rats, 0 < r.2.2.2.sum) →
      ∀ p ∈ (siteOccupancies (zip4 model mm names rats)).zip (sublatticeConfigurationOf mm),
        (p.2.map p.1).sum = 1 := by
  intro model
  induction model with
  | nil => intro mm names rats _ _ _ p hp; simp [zip4, siteOccupancies] at hp
  | cons x model ih =>
      intro mm names rats h1 h2 h3 p hp
      cases mm with
      | nil => simp [siteOccupancies, sublatticeConfigurationOf] at hp
      | cons y mm =>
          cases names with
          | nil => simp [zip4, siteOccupancies] at hp
          | cons z names =>
              cases rats with
              | nil => simp [zip4, siteOccupancies] at hp
              | cons w rats =>
                  rw [zip4_cons] at h1 h2 h3
                  rw [zip4_cons] at hp
                  simp only [siteOccupancies, List.map_cons, sublatticeConfigurationOf,
                    List.zip_cons_cons, List.mem_cons] at hp
                  rcases hp with hp | hp
                  · subst hp
                    exact occ_head_sum x y w
                      (h1 _ (List.mem_cons_self _ _))
                      (h2 _ (List.mem_cons_self _ _))
                      (h3 _ (List.mem_cons_self _ _))
                  · exact ih mm names rats
                      (fun r hr => h1 r (List.mem_cons_of_mem _ hr))
                      (fun r hr => h2 r (List.mem_cons_of_mem _ hr))
                      (fun r hr => h3 r (List.mem_cons_of_mem _ hr)) p hp

/-- The inner-length scan over the substitution rows, seen as a scan over
the concrete model zipped with the abstract model, when the names and the
ratios lists are as long as the model. -/
theorem zip4_any_mismatch {α β γ δ : Type} (f : α → ℕ) (g : β → ℕ) :
    ∀ (a : List α) (b : List β) (c : List γ) (d : List δ),
      c.length = a.length → d.length = a.length →
      (((zip4 a b c d).any fun r => f r.1 ≠ g r.2.1) = true
        ↔ ∃ p ∈ b.zip a, g p.1 ≠ f p.2) := by
  intro a
  induction a with
  | nil =>
      intro b c d _ _
      have hz : zip4 ([] : List α) b c d = [] := by simp [zip4]
      rw [hz]
      cases b <;> simp
  | cons x a ih =>
      intro b c d hc hd
      cases b with
      | nil => simp [zip4]
      | cons y b =>
          cases c with
          | nil => simp at hc
          | cons z c =>
              cases d with
              | nil => simp at hd
              | cons w d =>
                  rw [zip4_cons]
                  simp only [List.any_cons, List.zip_cons_cons, Bool.or_eq_true,
                    decide_eq_true_eq, List.mem_cons]
                  rw [ih b c d (by simpa using hc) (by simpa using hd)]
                  constructor
                  · rintro (h | ⟨p, hp, hpg⟩)
                    · exact ⟨(y, x), Or.inl rfl, fun hg => h hg.symm⟩
                    · exact ⟨p, Or.inr hp, hpg⟩
                  · rintro ⟨p, hp | hp, hpg⟩
                    · subst hp
                      exact Or.inl (fun hf => hpg hf.symm)
                    · exact Or.inr ⟨p, hp, hpg⟩

/-- Setting the freshly appended cell of a list overwrites only that
cell. -/
theorem set_append_length {α : Type} (l : List α) (x y : α) :
    (l ++ [x]).set l.length y = l ++ [y] := by
  induction l with
  | nil => rfl
  | cons a t ih => simp [List.set, ih]

/-- Reading the freshly appended cell of the heap. -/
theorem heapGet_append_length (heap : List AbstractSQS) (v : AbstractSQS) :
    heapGet (heap ++ [v]) heap.length = v := by
  rw [heapGet, List.getD_eq_getElem?_getD, List.getElem?_concat_length]
  rfl

/-- Evaluation of `get_concrete_sqs` when both size checks pass. -/
theorem get_concrete_sqs_ok (self : AbstractSQS) (m : List (List String))
    (scale_volume : Bool) (dT mT : String → ℚ)
    (h1 : m.length = self.sublattice_model.length)
    (h2 : ¬((substRows self m).any fun r => r.1.length ≠ r.2.1.length) = true) :
    get_concrete_sqs self m scale_volume dT mT = .ok
      { lattice := (selfCopyAfter self m scale_volume dT mT).lattice
        vol := (selfCopyAfter self m scale_volume dT mT).vol
        sites := (selfCopyAfter self m scale_volume dT mT).sites
        sublattice_configuration := sublatticeConfigurationOf m
        sublattice_occupancies := ((siteOccupancies (substRows self m)).zip
          (sublatticeConfigurationOf m)).map (fun p => p.2.map p.1)
        sublattice_site_ratios := (sublattice_site_ratios self).map List.sum } := by
  simp only [get_concrete_sqs]
  rw [if_neg (fun hc => hc h1), if_neg h2]

/-! ## Claim theorems

The concrete evaluations below are checked by `decide`; the Batteries
rational-arithmetic definitions are restored to their default reducibility
so that closed rational computations reduce. -/

attribute [local semireducible] Rat.add Rat.mul Rat.sub Rat.inv Rat.ofScientific

/-- C1: the reference scenario — `enumerate_sqs` on the L1₂ abstract
structure (`sublattice_model = [['a','b'],['a']]`) with the solution model
`[['Al','Ni'],['Fe','Cr']]` and `endmembers=False` — returns 2 concrete
structures, not the 4 asserted by
`test_sqs_is_properly_enumerated_for_a_higher_order_sublattice_model`:
both candidates substituting `(Ni, Al)` into the first sublattice
canonicalize to the already-recorded configuration `['Al','Ni']` and are
discarded by the configuration test of `sqs.py:322`. -/
theorem C1_enumeration_reference_scenario_yields_two :
    (enumerate_sqs s_L12 [["Al", "Ni"], ["Fe", "Cr"]] false true false dT0 mT0).map
        List.length = .ok 2 := by
  decide

/-- C2: the lower-order check of `sqs.py:304` compares the two lists of
inner lengths with Python list `<`, which is lexicographic rather than
elementwise.  For the rocksalt-like abstract model `[['a','b'],['a','b']]`
and the solution model `[['Al','Fe','Ni'],['Cr']]` the second sublattice is
lower order (1 species for 2 slots), yet `[3,1] < [2,2]` is false, so with
`skip_on_failure=False` no error is raised: enumeration proceeds and
returns the empty list (the 2-permutations of the single species `['Cr']`
are empty), contradicting the claim that a lower-order model always
raises when not skipped. -/
theorem C2_lower_order_model_not_detected :
    enumerate_sqs s_B1 [["Al", "Fe", "Ni"], ["Cr"]] true true false dT0 mT0 = .ok [] := by
  decide

/-- C3: in the reference scenario the second kept candidate
(`(('Al','Ni'),('Cr',))`) has exactly the `sublattice_occupancies`
`[[1/2,1/2],[1]]` of the first kept structure, with a new configuration —
the claim says such a candidate is discarded, but it is kept: the
occupancy tracker of `sqs.py:325` is appended to itself instead of
receiving `concrete.sublattice_occupancies`, so the occupancy membership
test of `sqs.py:323` never fires. -/
theorem C3_candidate_with_seen_occupancies_is_kept :
    (enumerate_sqs s_L12 [["Al", "Ni"], ["Fe", "Cr"]] false true false dT0 mT0).map
        (fun l => l.map (fun q => (q.sublattice_configuration, q.sublattice_occupancies)))
      = .ok [([["Al", "Ni"], ["Fe"]], [[1/2, 1/2], [1]]),
             ([["Al", "Ni"], ["Cr"]], [[1/2, 1/2], [1]])] := by
  decide

/-- C4 counterexample: `get_endmember_space_group_info` builds its
endmember structure through `get_concrete_sqs` with the default
`scale_volume=True` (`sqs.py:143` passes no flag), so density-based
rescaling IS applied: for the one-site abstract structure `s_end` of unit
volume, with an elemental density table making the estimated density 1 and
a mass table making the structure's density 2, the endmember structure's
volume is 2, not the abstract structure's 1. -/
theorem C4_counterexample_volume_rescaled :
    ¬ (get_endmember_concrete s_end dT0 mT4 ["H"]).map SQS.vol = .ok s_end.vol := by
  decide

/-- C5: every inner list of `sublattice_occupancies` of a concrete
structure returned by `get_concrete_sqs` sums to exactly 1 — hence to 1.0
within the claimed 1e-6 tolerance (the embedding computes the source's
float arithmetic in exact rationals).  Hypothesis: every sublattice's
reduced site-ratio list sums positively, which holds for any abstract
structure whose sublattice model was inferred from its own sites (a zero
sum would make the source divide by zero at `sqs.py:86`). -/
theorem C5_occupancy_sums (self : AbstractSQS) (subl_model : List (List String))
    (scale_volume : Bool) (dT mT : String → ℚ) (sqs : SQS)
    (hr : ∀ rl ∈ sublattice_site_ratios self, 0 < rl.sum)
    (h : get_concrete_sqs self subl_model scale_volume dT mT = .ok sqs) :
    ∀ occ ∈ sqs.sublattice_occupancies, occ.sum = 1 := by
  simp only [get_concrete_sqs] at h
  split_ifs at h with h1 h2 <;> simp only [reduceCtorEq, Except.ok.injEq] at h
  subst h
  · intro occ hocc
    rw [List.mem_map] at hocc
    obtain ⟨p, hp, rfl⟩ := hocc
    have hlen : ∀ r ∈ substRows self subl_model, r.1.length = r.2.1.length := by
      intro r hrr
      by_contra hne
      exact h2 (List.any_eq_true.mpr ⟨r, hrr, by simpa using hne⟩)
    have hshape : ∀ r ∈ substRows self subl_model, r.2.2.2.length = r.1.length := by
      intro r hrr
      rw [substRows, sublattice_site_ratios] at hrr
      have he := zip4_fourth_eq
        (fun subl name => subl.map (fun e => countTok self ("X" ++ name ++ e) / compGcd self))
        self.sublattice_model subl_model self.sublattice_names r hrr
      rw [he, List.length_map]
    have hpos : ∀ r ∈ substRows self subl_model, 0 < r.2.2.2.sum :=
      fun r hrr => hr _ (mem_zip4_fourth hrr)
    exact occ_rows_sum self.sublattice_model subl_model self.sublattice_names
      (sublattice_site_ratios self) hlen hshape hpos p hp

/-- Witness for C5: the L1₂ structure substituted with the test module's
concrete model `[['Fe','Ni'],['Al']]` yields the occupancy lists
`[[1/2, 1/2], [1]]`; the theorem instantiated at each of them gives their
sums. -/
theorem C5_occupancy_sums_witness :
    ([1/2, 1/2] : List ℚ).sum = 1 ∧ ([1] : List ℚ).sum = 1 :=
  ⟨C5_occupancy_sums s_L12 [["Fe", "Ni"], ["Al"]] false dT0 mT0
      (SQS.mk lat0 1
        (List.replicate 4 ("Fe", pos0) ++ List.replicate 4 ("Ni", pos0)
          ++ List.replicate 24 ("Al", pos0))
        [["Fe", "Ni"], ["Al"]] [[1/2, 1/2], [1]] [2, 6])
      (by decide) (by decide) [1/2, 1/2] (by decide),
   C5_occupancy_sums s_L12 [["Fe", "Ni"], ["Al"]] false dT0 mT0
      (SQS.mk lat0 1
        (List.replicate 4 ("Fe", pos0) ++ List.replicate 4 ("Ni", pos0)
          ++ List.replicate 24 ("Al", pos0))
        [["Fe", "Ni"], ["Al"]] [[1/2, 1/2], [1]] [2, 6])
      (by decide) (by decide) [1] (by decide)⟩

/-- C6: `get_concrete_sqs` fails with the size-mismatch error — whose
payload names both the concrete and the abstract sublattice model, as the
message of `_subl_error` (`sqs.py:70`) does — exactly when the outer
lengths differ or some inner concrete sublattice's length differs from its
abstract counterpart's, and returns a concrete structure (raising no
error) when every length matches.  Hypothesis: the data-model invariant
`len(sublattice_model) == len(sublattice_names)`, without which the
truncating `zip` of `sqs.py:78` could skip trailing sublattices. -/
theorem C6_size_mismatch (self : AbstractSQS) (m : List (List String))
    (scale_volume : Bool) (dT mT : String → ℚ)
    (hn : self.sublattice_names.length = self.sublattice_model.length) :
    (get_concrete_sqs self m scale_volume dT mT
        = .error (.sublMismatch m self.sublattice_model)
      ↔ (m.length ≠ self.sublattice_model.length
          ∨ ∃ p ∈ m.zip self.sublattice_model, p.1.length ≠ p.2.length))
    ∧ ((m.length = self.sublattice_model.length
          ∧ ∀ p ∈ m.zip self.sublattice_model, p.1.length = p.2.length)
        → ∃ sqs, get_concrete_sqs self m scale_volume dT mT = .ok sqs) := by
  have hrats : (sublattice_site_ratios self).length = self.sublattice_model.length := by
    simp [sublattice_site_ratios, hn]
  by_cases h1 : m.length = self.sublattice_model.length
  · have hany := zip4_any_mismatch List.length (fun l : List String => l.length)
      self.sublattice_model m self.sublattice_names (sublattice_site_ratios self) hn hrats
    by_cases h2 : ((substRows self m).any fun r => r.1.length ≠ r.2.1.length) = true
    · have e1 : get_concrete_sqs self m scale_volume dT mT
          = .error (.sublMismatch m self.sublattice_model) := by
        simp only [get_concrete_sqs]
        rw [if_neg (fun hc => hc h1), if_pos h2]
      have hex : ∃ p ∈ m.zip self.sublattice_model, p.1.length ≠ p.2.length := by
        apply hany.mp
        rwa [substRows] at h2
      refine ⟨⟨fun _ => Or.inr hex, fun _ => e1⟩, fun hall => absurd hall.2 ?_⟩
      obtain ⟨p, hp, hpne⟩ := hex
      exact fun hall2 => hpne (hall2 p hp)
    · obtain ⟨sqs0, e2⟩ : ∃ sqs, get_concrete_sqs self m scale_volume dT mT = .ok sqs :=
        ⟨_, get_concrete_sqs_ok self m scale_volume dT mT h1 h2⟩
      have hnotex : ¬ ∃ p ∈ m.zip self.sublattice_model, p.1.length ≠ p.2.length := by
        intro hex
        exact h2 (by rw [substRows]; exact hany.mpr hex)
      refine ⟨⟨fun he => ?_, fun hor => ?_⟩, fun _ => ⟨sqs0, e2⟩⟩
      · rw [e2] at he
        exact absurd he (by simp)
      · rcases hor with hor | hor
        · exact absurd h1 hor
        · exact absurd hor hnotex
  · have e0 : get_concrete_sqs self m scale_volume dT mT
        = .error (.sublMismatch m self.sublattice_model) := by
      simp only [get_concrete_sqs]
      rw [if_pos h1]
    exact ⟨⟨fun _ => Or.inl h1, fun _ => e0⟩, fun hall => absurd hall.1 h1⟩

/-- Witness for C6 at the L1₂ structure: the matching concrete model
`[['Fe','Ni'],['Al']]` satisfies the invariant hypothesis and the theorem
instantiates. -/
theorem C6_size_mismatch_witness :
    (get_concrete_sqs s_L12 [["Fe", "Ni"], ["Al"]] false dT0 mT0
        = .error (.sublMismatch [["Fe", "Ni"], ["Al"]] s_L12.sublattice_model)
      ↔ (([["Fe", "Ni"], ["Al"]] : List (List String)).length ≠ s_L12.sublattice_model.length
          ∨ ∃ p ∈ ([["Fe", "Ni"], ["Al"]] : List (List String)).zip s_L12.sublattice_model,
              p.1.length ≠ p.2.length))
    ∧ ((([["Fe", "Ni"], ["Al"]] : List (List String)).length = s_L12.sublattice_model.length
          ∧ ∀ p ∈ ([["Fe", "Ni"], ["Al"]] : List (List String)).zip s_L12.sublattice_model,
              p.1.length = p.2.length)
        → ∃ sqs, get_concrete_sqs s_L12 [["Fe", "Ni"], ["Al"]] false dT0 mT0 = .ok sqs) :=
  C6_size_mismatch s_L12 [["Fe", "Ni"], ["Al"]] false dT0 mT0 (by decide)

/-- C7: the heap-passing run of `get_concrete_sqs` never mutates its
receiver — the object at the receiver's address is identical before and
after the call (lattice, volume, site positions and species tokens,
`sublattice_model`, `sublattice_names`: the whole value), every mutation
going to the freshly allocated deep copy — and the returned concrete
structure is exactly the value `get_concrete_sqs` computes from the
receiver's (unchanged) value. -/
theorem C7_receiver_unchanged (heap : List AbstractSQS) (ref : ℕ)
    (m : List (List String)) (scale_volume : Bool) (dT mT : String → ℚ)
    (h : ref < heap.length) :
    (get_concrete_sqs_method heap ref m scale_volume dT mT).1[ref]? = heap[ref]?
      ∧ (get_concrete_sqs_method heap ref m scale_volume dT mT).2
          = get_concrete_sqs (heapGet heap ref) m scale_volume dT mT := by
  simp only [get_concrete_sqs_method, get_concrete_sqs]
  split_ifs with h1 h2
  · exact ⟨rfl, rfl⟩
  · exact ⟨rfl, rfl⟩
  · rw [set_append_length heap (heapGet heap ref)
      (selfCopyAfter (heapGet heap ref) m scale_volume dT mT)]
    exact ⟨List.getElem?_append_left h,
      by rw [heapGet_append_length heap
        (selfCopyAfter (heapGet heap ref) m scale_volume dT mT)]⟩

/-- Witness for C7: a one-object heap holding the L1₂ structure. -/
theorem C7_receiver_unchanged_witness :
    (get_concrete_sqs_method [s_L12] 0 [["Fe", "Ni"], ["Al"]] false dT0 mT0).1[0]?
        = [s_L12][0]?
      ∧ (get_concrete_sqs_method [s_L12] 0 [["Fe", "Ni"], ["Al"]] false dT0 mT0).2
          = get_concrete_sqs (heapGet [s_L12] 0) [["Fe", "Ni"], ["Al"]] false dT0 mT0 :=
  C7_receiver_unchanged [s_L12] 0 [["Fe", "Ni"], ["Al"]] false dT0 mT0 (by decide)

/-- C4 amended: the endmember structure is built with volume scaling
enabled — `sqs.py:143` passes no `scale_volume` flag, so the default
`True` applies — and its volume is the density-heuristic rescale target
`(volume / estimated_density) * density` of the substituted copy, not the
abstract structure's volume. -/
theorem C4_amended_volume_formula (s : AbstractSQS) (dT mT : String → ℚ)
    (ptKeys : List String) (em : SQS)
    (h : get_endmember_concrete s dT mT ptKeys = .ok em) :
    em.vol = s.vol
        / estimatedDensity (substitutedSites s.sites
            (replacementDict (substRows s (endmemberSubl s ptKeys)))) dT
        * structDensity (substitutedSites s.sites
            (replacementDict (substRows s (endmemberSubl s ptKeys)))) s.vol mT := by
  simp only [get_endmember_concrete, get_concrete_sqs] at h
  split_ifs at h <;> simp only [reduceCtorEq, Except.ok.injEq] at h
  subst h
  rfl

/-- Witness for C4 amended: the endmember structure of `s_end` has volume
`1 / 1 * 2 = 2`. -/
theorem C4_amended_volume_formula_witness :
    (SQS.mk lat0 2 [("H", pos0)] [["H"]] [[1]] [1]).vol
      = s_end.vol
        / estimatedDensity (substitutedSites s_end.sites
            (replacementDict (substRows s_end (endmemberSubl s_end ["H"])))) dT0
        * structDensity (substitutedSites s_end.sites
            (replacementDict (substRows s_end (endmemberSubl s_end ["H"])))) s_end.vol mT4 :=
  C4_amended_volume_formula s_end dT0 mT4 ["H"]
    (SQS.mk lat0 2 [("H", pos0)] [["H"]] [[1]] [1]) (by decide)

/-- The keyword plumbing of the constructor call at `sqs_db.py:111` fails
for every `Structure.__init__` keyword list that does not include
`sublattice_model`: none of the three keywords of the call is among the
keys `SQS.__init__` pops, so either `coords_are_cartesian` or
`sublattice_model` is the first keyword `Structure.__init__` rejects. -/
theorem pyKwargsForward_latIn_fails (accepted : List String)
    (h : "sublattice_model" ∉ accepted) :
    ∃ k, pyKwargsForward sqsInitPops latInCallKwargs accepted
      = .error (.typeError k) := by
  have hsm : accepted.contains "sublattice_model" = false := by
    simpa using h
  unfold pyKwargsForward
  have hf : latInCallKwargs.filter (fun k => !sqsInitPops.contains k)
      = ["coords_are_cartesian", "sublattice_model", "sublattice_names"] := by decide
  rw [hf]
  by_cases hc : accepted.contains "coords_are_cartesian"
  · refine ⟨"sublattice_model", ?_⟩
    simp only [firstRejected]
    rw [if_pos hc, if_neg (by rw [hsm]; exact Bool.false_ne_true)]
  · rw [Bool.not_eq_true] at hc
    refine ⟨"coords_are_cartesian", ?_⟩
    simp only [firstRejected]
    rw [if_neg (by rw [hc]; exact Bool.false_ne_true)]

/-- The frozen builder never returns a structure: for every parsed input,
either the atom loop raises, or — whenever the external
`Structure.__init__` does not accept a `sublattice_model` keyword — the
constructor call of `sqs_db.py:111` raises `TypeError`, so the cell
correction of `sqs_db.py:114` is never executed. -/
theorem lat_in_to_sqs_always_errors (C L : Matrix (Fin 3) (Fin 3) ℚ)
    (atat_atoms : List ((Fin 3 → ℚ) × List String)) (rename : Bool)
    (accepted : List String) (h : "sublattice_model" ∉ accepted) :
    ∃ e, lat_in_to_sqs C L atat_atoms rename accepted = .error e := by
  unfold lat_in_to_sqs
  cases hm : mapExcept (processAtom rename) atat_atoms with
  | error e => exact ⟨e, rfl⟩
  | ok entries =>
      obtain ⟨k, hk⟩ := pyKwargsForward_latIn_fails accepted h
      refine ⟨.typeError k, ?_⟩
      rw [hk]

/-- C9: the reference input `ATAT_GA3PT5_LATTICE_IN` (like every input
that survives the atom loop) makes `lat_in_to_sqs` raise `TypeError` at
the `SQS(...)` construction of `sqs_db.py:111`: the `sublattice_model`
keyword is not popped by `SQS.__init__` (`sqs.py:184`–`sqs.py:186`; only
`AbstractSQS.__init__` would pop it) and reaches pymatgen's
`Structure.__init__`, which accepts no such keyword.  The builder
therefore never reaches the cell correction at `sqs_db.py:114`, so no run
of the frozen code exhibits the claimed property of the corrected cell —
positions preserved or otherwise. -/
theorem C9_builder_raises_type_error :
    lat_in_to_sqs ga3pt5Coord ga3pt5Direct ga3pt5Atoms true structureInitKeywords
      = .error (.typeError "sublattice_model") := by
  decide

/-- C10: `SQS.__eq__` has an empty body (`sqs.py:189`–`sqs.py:190`), so
`x == y` returns `None` — a falsy value — for every pair of concrete
structures, including `x == x`: equality is never `True` and is not
reflexive. -/
theorem C10_sqs_eq_always_none :
    (∀ x y : SQS, SQS.pyEq x y = none ∧ pyTruthy (SQS.pyEq x y) = false)
      ∧ ∀ x : SQS, SQS.pyEq x x ≠ some true :=
  ⟨fun _ _ => ⟨rfl, rfl⟩, fun _ h => Option.noConfusion h⟩

/-- C8: round trip — `from_dict (as_dict s)` restores every field of the
abstract structure: lattice, volume and site content exactly as
serialized, and `sublattice_model` / `sublattice_names` exactly as stored
by `as_dict` (`sqs.py:149`–`sqs.py:150`, read back at
`sqs.py:159`–`sqs.py:160`), preserving order and case. -/
theorem C8_as_dict_from_dict_round_trip (s : AbstractSQS) (dT mT : String → ℚ)
    (ptKeys : List String) (sga : SQS → String × ℤ) (d : SQSDict)
    (h : AbstractSQS.as_dict s dT mT ptKeys sga = .ok d) :
    AbstractSQS.from_dict d = s := by
  unfold AbstractSQS.as_dict at h
  cases heq : get_endmember_concrete s dT mT ptKeys with
  | error e => rw [heq] at h; exact absurd h (by simp)
  | ok em =>
      rw [heq] at h
      injection h with h
      subst h
      rfl

/-- Witness for C8 at a concrete abstract structure and concrete external
tables. -/
theorem C8_round_trip_witness :
    AbstractSQS.from_dict
      { lattice := lat0, vol := 1, sites := [("Xaa", pos0)],
        sublattice_model := [["a"]], sublattice_names := ["a"],
        sublattice_site_ratios := [[1]],
        symmetry_symbol := "P1", symmetry_number := 1 } = s_end :=
  C8_as_dict_from_dict_round_trip s_end dT0 mT4 ["H"] (fun _ => ("P1", 1))
    { lattice := lat0, vol := 1, sites := [("Xaa", pos0)],
      sublattice_model := [["a"]], sublattice_names := ["a"],
      sublattice_site_ratios := [[1]],
      symmetry_symbol := "P1", symmetry_number := 1 }
    (by decide)

end Prl
